import Mathlib

/- Verification of the cycle-phase estimation engine in
   src/backend/scripts/garmin_data_collector.py: the function
   predict_menstrual_phases (lines 57-278) and the duplicated segmentation
   logic of calculate_current_phase (lines 602-726).

   Modelling conventions:
   * Calendar dates are integers (day numbers); the difference of two day
     numbers models (a - b).days on Python datetimes.
   * Python floor division (//) is Int.fdiv and Python modulo (%) is
     Int.fmod (both follow the divisor's sign, as in Python).
   * Python int(x / y) -- true division then truncation toward zero -- is
     Int.tdiv; at the magnitudes this program handles (day counts and
     sums of cycle-length deltas) float64 division is exact enough that
     the truncated result equals exact truncated rational division.
   * A raw record field that Python would hold as None (or, for the date
     string, as the falsy empty string) is modelled as Option.none.
   * Early returns that abort the batch with a printed message are
     modelled as typed errors (Except), one constructor per reason;
     Python runtime exceptions that escape the per-date loop (zero
     modulus, out-of-range list index) are the runtimeError constructor. -/

/-- The four phase labels emitted by the engine. -/
inductive Phase
  | Menstrual
  | Follicular
  | Ovulatory
  | Luteal
  deriving DecidableEq, Repr

/-- One raw cycle summary, as delivered by the upstream collaborator
(fields startDate, periodLength, fertileWindowStart, lengthOfFertileWindow
of a cycleSummaries entry, lines 100-103). -/
structure RawCycle where
  startDate : Option Int
  periodLength : Option Int
  fertileWindowStart : Option Int
  lengthOfFertileWindow : Option Int
  deriving DecidableEq, Repr

/-- One output prediction record (lines 237-243; user_id omitted, it is
threaded through unchanged). -/
structure Prediction where
  date : Int
  startDate : Int
  predictedPhase : Phase
  cycleDay : Int
  deriving DecidableEq, Repr

/-- The four phase boundary offsets of one cycle (lines 220-224). -/
structure PhaseBoundaries where
  menstrualEnd : Int
  follicularEnd : Int
  ovulatoryEnd : Int
  lutealEnd : Int
  deriving DecidableEq, Repr

/-- Reasons the batch run produces no predictions: the early returns of
predict_menstrual_phases (lines 77-79, 86-93, 114-116, 156-158) and a
runtime exception escaping the per-date loop. -/
inductive PredictError
  | noTargetDates
  | noCycleData
  | noMatchingStarts
  | runtimeError
  deriving DecidableEq, Repr

/-- Line 105: a record is kept only when startDate is present (and not the
falsy empty string) and periodLength is not None.  Note periodLength = 0 is
kept. -/
def isValid (r : RawCycle) : Bool :=
  r.startDate.isSome && r.periodLength.isSome

/-- Lines 111-112: the fertile window of a record counts only when both
fertileWindowStart and lengthOfFertileWindow are truthy, i.e. present and
nonzero. -/
def truthyHint (r : RawCycle) : Option (Int × Int) :=
  match r.fertileWindowStart, r.lengthOfFertileWindow with
  | some a, some b => if a ≠ 0 ∧ b ≠ 0 then some (a, b) else none
  | _, _ => none

/-- Lines 99-112: the start dates of the valid records, in input order
(the cycle_starts list before sorting). -/
def cycleStarts (recs : List RawCycle) : List Int :=
  recs.filterMap fun r => if isValid r then r.startDate else none

/-- The period_lengths dict (line 110): keyed by start date, the last
valid record with that start wins (Python dict overwrite). -/
def lookupPeriod (recs : List RawCycle) (s : Int) : Option Int :=
  ((recs.filter fun r => isValid r && r.startDate == some s).getLast?).bind
    fun r => r.periodLength

/-- The fertile_windows dict (lines 111-112): keyed by start date, holding
the hint of the last valid record with that start whose hint is truthy. -/
def lookupFertile (recs : List RawCycle) (s : Int) : Option (Int × Int) :=
  ((recs.filter fun r =>
      isValid r && r.startDate == some s && (truthyHint r).isSome).getLast?).bind
    truthyHint

/-- Line 119: cycle_starts.sort().  Python's stable sort of integers is
any ascending sort; modelled by insertion sort. -/
def sortStarts (l : List Int) : List Int :=
  List.insertionSort (· ≤ ·) l

/-- Lines 123-131, loop body, with the kept list held in reverse:
append the current start when it is at least MIN_CYCLE_LENGTH = 15 days
after the last kept start, else replace the last kept start with it. -/
def filterRev (a : Int) (kept : List Int) : List Int → List Int
  | [] => a :: kept
  | x :: xs =>
    if 15 ≤ x - a then filterRev x (a :: kept) xs else filterRev x kept xs

/-- Lines 118-133: sort the starts, seed the filtered list with the first,
then walk the rest (filtered_cycle_starts). -/
def filteredCycleStarts (l : List Int) : List Int :=
  match sortStarts l with
  | [] => []
  | c :: cs => (filterRev c [] cs).reverse

/-- Lines 137-141: the day gaps between consecutive filtered starts that
lie in the plausible range [15, 45]. -/
def cycleDeltas : List Int → List Int
  | a :: b :: t =>
    (if 15 ≤ b - a ∧ b - a ≤ 45 then [b - a] else []) ++ cycleDeltas (b :: t)
  | _ => []

/-- Lines 142-147: int(np.mean(cycle_lengths)) when any delta qualifies,
else the default_cycle_length parameter.  np.mean of a nonempty integer
list, truncated by int(), is the truncated rational mean. -/
def estimatedCycleLength (dflt : Int) (starts : List Int) : Int :=
  let ds := cycleDeltas starts
  if ds = [] then dflt else Int.tdiv ds.sum (ds.length : Int)

/-- The estimator as the specification words it (section 4.2): day-deltas
between each consecutive pair of starts, kept when in [15, 45], arithmetic
mean truncated to an integer, default when no delta qualifies.  Written
from the spec, to be compared with estimatedCycleLength. -/
def specCycleLengthEstimate (dflt : Int) (starts : List Int) : Int :=
  let ds := (List.zipWith (fun a b => b - a) starts starts.tail).filter
    fun d => 15 ≤ d ∧ d ≤ 45
  if ds = [] then dflt else Int.tdiv ds.sum (ds.length : Int)

/-- Lines 202-207 (and 683-687): the heuristic ovulatory window used when
no fertile hint exists: midpoint int(cycle_length * 14 / 28), start
max(menstrual_duration + 1, midpoint - 3), duration 7, pulled back when it
would overrun the cycle. -/
def ovulatoryEstimate (m L : Int) : Int × Int :=
  let mid := Int.tdiv (L * 14) 28
  let s := max (m + 1) (mid - 3)
  let s := if s + 7 - 1 > L then max (m + 1) (L - 7 + 1) else s
  (s, 7)

/-- Lines 209-224 (and 689-704): from menstrual duration, cycle length and
the chosen ovulatory window, derive the boundaries.  The luteal duration
is clamped to [10, 16]; the ovulatory start is re-derived from the clamp;
the follicular duration fills the gap and is forced to at least 1.  (The
code also recomputes ovulatory_start after forcing the follicular
duration, but that value is dead: the emitted boundaries use only the
durations.) -/
def segmentCore (m L : Int) (ov : Int × Int) : PhaseBoundaries :=
  let ovDur := ov.2
  let luteal0 := L - (ov.1 + ovDur - 1)
  let luteal := max 10 (min 16 luteal0)
  let ovStart1 := max (m + 1) (L - luteal - ovDur + 1)
  let foll0 := ovStart1 - m - 1
  let foll := if foll0 < 1 then 1 else foll0
  { menstrualEnd := m
    follicularEnd := m + foll
    ovulatoryEnd := m + foll + ovDur
    lutealEnd := L }

/-- Lines 193-224: the phase segmenter for one cycle: menstrual duration,
cycle length and optional fertile-window hint to boundaries. -/
def segmentPhases (m L : Int) (hint : Option (Int × Int)) : PhaseBoundaries :=
  segmentCore m L (match hint with
    | some h => h
    | none => ovulatoryEstimate m L)

/-- Lines 228-235 (and 708-715): classify a folded cycle day against the
boundaries. -/
def classifyPhase (b : PhaseBoundaries) (v : Int) : Phase :=
  if 1 ≤ v ∧ v ≤ b.menstrualEnd then Phase.Menstrual
  else if b.menstrualEnd < v ∧ v ≤ b.follicularEnd then Phase.Follicular
  else if b.follicularEnd < v ∧ v ≤ b.ovulatoryEnd then Phase.Ovulatory
  else Phase.Luteal

/-- Lines 152-155: the first index i with dates[i] >= start, if any. -/
def firstIdxGe (dates : List Int) (s : Int) : Option Nat :=
  match dates with
  | [] => none
  | d :: ds => if s ≤ d then some 0 else (firstIdxGe ds s).map (· + 1)

/-- Lines 150-155: one entry per cycle start that some target date
reaches (cycle_start_indices). -/
def cycleStartIndices (dates : List Int) (starts : List Int) : List Nat :=
  starts.filterMap (firstIdxGe dates)

/-- Lines 166-173: walk zip(cycle_start_indices, cycle_starts) keeping the
last pair whose start is <= the date, stopping at the first that is not. -/
def findGoverning : List (Nat × Int) → Int → Option (Int × Nat)
  | [], _ => none
  | (i, s) :: rest, date =>
    if s ≤ date then
      match findGoverning rest date with
      | some r => some r
      | none => some (s, i)
    else none

/-- Lines 166-181: the governing cycle start for a date and the index it
carries: the zip walk when it finds one, else the backward projection
cycle_start = first_start - (days_before_first // est + 1) * est with
index 0. -/
def governingStart (indices : List Nat) (starts : List Int)
    (s0 est date : Int) : Int × Nat :=
  match findGoverning (indices.zip starts) date with
  | some r => r
  | none =>
    let daysBefore := s0 - date
    let cyclesBefore := Int.fdiv daysBefore est + 1
    (s0 - cyclesBefore * est, 0)

/-- Python list.index: position of the first occurrence (only used under a
membership guard, as in the source, line 187). -/
def listIndex : List Nat → Nat → Nat
  | [], _ => 0
  | x :: xs, y => if x = y then 0 else listIndex xs y + 1

/-- Python list subscripting with a possibly negative index; none models
an IndexError. -/
def pyIdx (l : List Nat) (i : Int) : Option Nat :=
  if 0 ≤ i then l.get? i.toNat
  else if -i ≤ (l.length : Int) then l.get? (l.length - (-i).toNat) else none

/-- Lines 186-191: the length used for the governing cycle.
next_cycle_idx is the position after the first occurrence of the carried
index when that index occurs in cycle_start_indices, else -1; when
next_cycle_idx < len(cycle_start_indices) the length is the gap from the
cycle start to dates[cycle_start_indices[next_cycle_idx]] (a Python -1
subscript reads the last entry), else the estimate. -/
def currentCycleLength (dates : List Int) (indices : List Nat)
    (est cycleStart : Int) (idx : Nat) : Option Int :=
  let n : Int := if idx ∈ indices then (listIndex indices idx : Int) + 1 else -1
  if n < (indices.length : Int) then
    match pyIdx indices n with
    | none => none
    | some j =>
      match dates.get? j with
      | none => none
      | some d => some (d - cycleStart)
  else
    some est

/-- Lines 164-243, one iteration of the per-date loop: locate the
governing cycle, compute its length, segment it, fold the cycle day into
[1, cycle_length] (a zero remainder becomes cycle_length; a zero modulus
is a Python ZeroDivisionError, modelled as none) and classify. -/
def assignForDate (dates : List Int) (indices : List Nat) (starts : List Int)
    (s0 : Int) (recs : List RawCycle) (est : Int) (date : Int) :
    Option Prediction :=
  let gs := governingStart indices starts s0 est date
  let cycleStart := gs.1
  let cycleDay := date - cycleStart + 1
  match currentCycleLength dates indices est cycleStart gs.2 with
  | none => none
  | some L =>
    let m := (lookupPeriod recs cycleStart).getD 5
    let b := segmentPhases m L (lookupFertile recs cycleStart)
    if L = 0 then none
    else
      let r := Int.fmod cycleDay L
      let v := if r ≠ 0 then r else L
      some { date := date, startDate := cycleStart
             predictedPhase := classifyPhase b v, cycleDay := v }

/-- The per-date loop (lines 163-243): one prediction per target date, a
runtime error on any date aborting the whole batch. -/
def collectPredictions (f : Int → Option Prediction) :
    List Int → Option (List Prediction)
  | [] => some []
  | d :: ds =>
    match f d, collectPredictions f ds with
    | some p, some ps => some (p :: ps)
    | _, _ => none

/-- predict_menstrual_phases, lines 57-243, as a pure batch function:
target dates (the hr_data dates, ascending) and raw cycle summaries to
either a typed failure or the full prediction list. -/
def predictMenstrualPhases (dates : List Int) (recs : List RawCycle)
    (dflt : Int) : Except PredictError (List Prediction) :=
  if dates = [] then Except.error PredictError.noTargetDates
  else if cycleStarts recs = [] then Except.error PredictError.noCycleData
  else
    match filteredCycleStarts (cycleStarts recs) with
    | [] => Except.error PredictError.noCycleData
    | s0 :: rest =>
      if cycleStartIndices dates (s0 :: rest) = [] then
        Except.error PredictError.noMatchingStarts
      else
        match collectPredictions
            (assignForDate dates (cycleStartIndices dates (s0 :: rest))
              (s0 :: rest) s0 recs (estimatedCycleLength dflt (s0 :: rest)))
            dates with
        | none => Except.error PredictError.runtimeError
        | some ps => Except.ok ps

/- ===== general helper lemmas ===== -/

lemma mem_of_get?_eq_some {α : Type} {l : List α} {k : Nat} {x : α}
    (h : l.get? k = some x) : x ∈ l :=
  List.mem_iff_get?.mpr ⟨k, h⟩

lemma listIndex_get? {l : List Nat} {i : Nat} (h : i ∈ l) :
    l.get? (listIndex l i) = some i := by
  induction l with
  | nil => cases h
  | cons x xs ih =>
    rw [listIndex]
    by_cases hx : x = i
    · rw [if_pos hx, List.get?_cons_zero, hx]
    · have hmem : i ∈ xs := by
        cases h with
        | head => exact absurd rfl hx
        | tail _ h' => exact h'
      rw [if_neg hx, List.get?_cons_succ]
      exact ih hmem

lemma listIndex_le {l : List Nat} {i k : Nat} (h : l.get? k = some i) :
    listIndex l i ≤ k := by
  induction l generalizing k with
  | nil => simp at h
  | cons x xs ih =>
    cases k with
    | zero =>
      simp only [List.get?_cons_zero, Option.some.injEq] at h
      rw [listIndex]
      simp [h]
    | succ k' =>
      rw [listIndex]
      by_cases hx : x = i
      · simp [hx]
      · simp only [if_neg hx]
        exact Nat.succ_le_succ (ih (by simpa using h))

lemma pairwise_le_get? {α : Type} [Preorder α] {l : List α}
    (h : List.Pairwise (· ≤ ·) l) {a b : Nat}
    {x y : α} (ha : l.get? a = some x) (hb : l.get? b = some y)
    (hab : a ≤ b) : x ≤ y := by
  rcases Nat.eq_or_lt_of_le hab with heq | hlt
  · subst heq
    rw [ha] at hb
    injection hb with hxy
    exact le_of_eq hxy
  · rcases List.get?_eq_some.mp ha with ⟨ha', hxa⟩
    rcases List.get?_eq_some.mp hb with ⟨hb', hyb⟩
    have := List.pairwise_iff_get.mp h ⟨a, ha'⟩ ⟨b, hb'⟩ hlt
    rw [hxa, hyb] at this
    exact this

lemma zip_get? {α β : Type} : ∀ (l1 : List α) (l2 : List β) (k : Nat)
    (x : α) (y : β), (l1.zip l2).get? k = some (x, y) →
    l1.get? k = some x ∧ l2.get? k = some y := by
  intro l1
  induction l1 with
  | nil => intro l2 k x y h; simp [List.zip] at h
  | cons a as ih =>
    intro l2 k x y h
    cases l2 with
    | nil => simp [List.zip] at h
    | cons b bs =>
      rw [List.zip_cons_cons] at h
      cases k with
      | zero =>
        simp only [List.get?_cons_zero, Option.some.injEq, Prod.mk.injEq] at h
        simp [h.1, h.2]
      | succ k' =>
        simp only [List.get?_cons_succ] at h ⊢
        exact ih bs k' x y h

/- ===== claim C3: the 28-day no-hint scenario ===== -/

/-- Claim C3: encoding 2025-01-01 as day 0 (so 2025-01-25 is day 24), a
cycle record with start 2025-01-01 and period_length 5, no fertile hint,
and estimated cycle length 28 segments to menstrual_end = 5,
follicular_end = 10 (so the ovulatory range is days 11..17),
ovulatory_end = 17, luteal_end = 28; the full batch maps 2025-01-01 to
phase Menstrual with cycle_day 1 and 2025-01-25 to Luteal with
cycle_day 25. -/
theorem scenario_jan2025 :
    segmentPhases 5 28 none =
      { menstrualEnd := 5, follicularEnd := 10,
        ovulatoryEnd := 17, lutealEnd := 28 } ∧
    predictMenstrualPhases [0, 24] [⟨some 0, some 5, none, none⟩] 28 =
      Except.ok [⟨0, 0, Phase.Menstrual, 1⟩, ⟨24, 0, Phase.Luteal, 25⟩] := by
  exact ⟨rfl, rfl⟩

/- ===== claim C5: the de-duplication example ===== -/

/-- Claim C5: encoding 2024-01-01 as day 0 (2024-01-10 is day 9,
2024-02-05 is day 35), normalization of the raw starts yields exactly
the kept starts 2024-01-10 and 2024-02-05: the later record wins over a
predecessor fewer than 15 days before it. -/
theorem dedup_example : filteredCycleStarts [0, 9, 35] = [9, 35] := by
  rfl

/- ===== claim C1: the partition invariant ===== -/

/-- Claim C1 is false as stated: a record with periodLength 0 passes the
validity check (line 105 skips only None) and reaches the segmenter as
menstrual_duration 0, giving menstrual_end = 0, which violates
0 < menstrual_end.  (With menstrual_duration 27 and cycle length 28 the
segmenter also yields ovulatory_end = 35 > luteal_end = 28.) -/
theorem partition_invariant_counterexample :
    ¬ (0 < (segmentPhases 0 28 none).menstrualEnd ∧
       (segmentPhases 0 28 none).menstrualEnd <
         (segmentPhases 0 28 none).follicularEnd ∧
       (segmentPhases 0 28 none).follicularEnd <
         (segmentPhases 0 28 none).ovulatoryEnd ∧
       (segmentPhases 0 28 none).ovulatoryEnd ≤
         (segmentPhases 0 28 none).lutealEnd ∧
       (segmentPhases 0 28 none).lutealEnd = 28) := by
  decide

/-- Claim C1, amended: the partition chain
0 < menstrual_end < follicular_end < ovulatory_end <= luteal_end with
luteal_end = cycle_length holds for every boundary set the segmenter
produces without a fertile hint from a positive menstrual duration m with
m + 8 <= cycle_length (the counterexamples force exactly these
restrictions: m = 0 breaks the first inequality, m + 8 > L breaks
ovulatory_end <= luteal_end, and a wild hint can break it too). -/
theorem partition_invariant_amended (m L : Int) (h1 : 1 ≤ m)
    (h2 : m + 8 ≤ L) :
    0 < (segmentPhases m L none).menstrualEnd ∧
    (segmentPhases m L none).menstrualEnd <
      (segmentPhases m L none).follicularEnd ∧
    (segmentPhases m L none).follicularEnd <
      (segmentPhases m L none).ovulatoryEnd ∧
    (segmentPhases m L none).ovulatoryEnd ≤
      (segmentPhases m L none).lutealEnd ∧
    (segmentPhases m L none).lutealEnd = L := by
  have key : ∀ ovS : Int,
      0 < (segmentCore m L (ovS, 7)).menstrualEnd ∧
      (segmentCore m L (ovS, 7)).menstrualEnd <
        (segmentCore m L (ovS, 7)).follicularEnd ∧
      (segmentCore m L (ovS, 7)).follicularEnd <
        (segmentCore m L (ovS, 7)).ovulatoryEnd ∧
      (segmentCore m L (ovS, 7)).ovulatoryEnd ≤
        (segmentCore m L (ovS, 7)).lutealEnd ∧
      (segmentCore m L (ovS, 7)).lutealEnd = L := by
    intro ovS
    simp only [segmentCore]
    set lut := max 10 (min 16 (L - (ovS + 7 - 1))) with hlut
    have h10 : 10 ≤ lut := le_max_left _ _
    set os1 := max (m + 1) (L - lut - 7 + 1) with hos
    have hm1 : m + 1 ≤ os1 := le_max_left _ _
    by_cases hf : os1 - m - 1 < 1
    · simp only [if_pos hf]
      refine ⟨by omega, by omega, by omega, by omega, trivial⟩
    · have hpick : os1 = L - lut - 7 + 1 := by
        rcases max_choice (m + 1) (L - lut - 7 + 1) with h | h <;> omega
      simp only [if_neg hf]
      refine ⟨by omega, by omega, by omega, by omega, trivial⟩
  rw [segmentPhases]
  have hov : (ovulatoryEstimate m L).2 = 7 := rfl
  have := key (ovulatoryEstimate m L).1
  simpa using this

/-- Witness for the amended claim C1 at the spec scenario values m = 5,
L = 28. -/
theorem partition_invariant_amended_witness :
    0 < (segmentPhases 5 28 none).menstrualEnd ∧
    (segmentPhases 5 28 none).menstrualEnd <
      (segmentPhases 5 28 none).follicularEnd ∧
    (segmentPhases 5 28 none).follicularEnd <
      (segmentPhases 5 28 none).ovulatoryEnd ∧
    (segmentPhases 5 28 none).ovulatoryEnd ≤
      (segmentPhases 5 28 none).lutealEnd ∧
    (segmentPhases 5 28 none).lutealEnd = 28 :=
  partition_invariant_amended 5 28 (by norm_num) (by norm_num)

/- ===== claim C2: the per-cycle length ===== -/

/-- Claim C2 is false as stated: with target dates 0 and 50 (day numbers
for 2024-01-01 and 2024-02-20) and recorded starts 0 and 31 (2024-02-01),
the governing cycle of target date 0 is the start 0 carrying date-index 0,
the next recorded start is 31 (gap 31), but the mapper computes the cycle
length as 50 = dates[cycle_start_indices[1]] - 0: the gap to the first
target date at or after the next recorded start, not to the next recorded
start itself. -/
theorem cycle_length_gap_counterexample :
    governingStart (cycleStartIndices [0, 50] [0, 31]) [0, 31] 0 28 0 =
      (0, 0) ∧
    currentCycleLength [0, 50] (cycleStartIndices [0, 50] [0, 31]) 28 0 0 =
      some 50 ∧
    (50 : Int) ≠ 31 - 0 := by
  decide

/-- Claim C2, amended: when the governing start s carries the date-index
stored at position k of cycle_start_indices and the index list has no
duplicate entries, the mapper uses as the cycle's length the gap from s to
dates[cycle_start_indices[k+1]] — the earliest target date at or after
the next recorded start that any target date reaches — when position k+1
exists, and the estimated cycle length otherwise. -/
theorem cycle_length_gap_amended (dates starts : List Int) (est s : Int)
    (j k : Nat)
    (hnd : (cycleStartIndices dates starts).Nodup)
    (hk : (cycleStartIndices dates starts).get? k = some j) :
    currentCycleLength dates (cycleStartIndices dates starts) est s j =
      match (cycleStartIndices dates starts).get? (k + 1) with
      | some j2 => (dates.get? j2).map fun d => d - s
      | none => some est := by
  set il := cycleStartIndices dates starts with hil
  have hmem : j ∈ il := mem_of_get?_eq_some hk
  have h1 : il.get? (listIndex il j) = some j := listIndex_get? hmem
  have hbound : listIndex il j < il.length :=
    (List.get?_eq_some.mp h1).1
  have hidx : listIndex il j = k := List.get?_inj hbound hnd (h1.trans hk.symm)
  rw [currentCycleLength]
  simp only [if_pos hmem, hidx]
  by_cases hlt : ((k : Int) + 1) < (il.length : Int)
  · rw [if_pos hlt]
    have hklen : k + 1 < il.length := by omega
    have htn : ((k : Int) + 1).toNat = k + 1 := by omega
    have hpy : pyIdx il ((k : Int) + 1) = il.get? (k + 1) := by
      rw [pyIdx, if_pos (by omega : (0 : Int) ≤ (k : Int) + 1), htn]
    obtain ⟨j2, hj2⟩ : ∃ j2, il.get? (k + 1) = some j2 := by
      rw [List.get?_eq_get hklen]
      exact ⟨_, rfl⟩
    rw [hpy, hj2]
    show (match dates.get? j2 with
          | none => none
          | some d => some (d - s)) =
        (dates.get? j2).map fun d => d - s
    cases dates.get? j2 <;> rfl
  · rw [if_neg hlt]
    have hlen : il.length ≤ k + 1 := by omega
    rw [List.get?_eq_none.mpr hlen]

/-- Witness for the amended claim C2 at the counterexample input: position
k = 0 holds index 0, position 1 holds index 1, and the computed length is
50 - 0. -/
theorem cycle_length_gap_amended_witness :
    currentCycleLength [0, 50] (cycleStartIndices [0, 50] [0, 31]) 28 0 0 =
      some 50 := by
  have h := cycle_length_gap_amended [0, 50] [0, 31] 28 0 0 0
    (by decide) (by decide)
  rw [h]
  decide

/- ===== claim C4: backward projection before the first start ===== -/

/-- Claim C4: for a target date strictly before the first recorded start
s0, the mapper projects backward to the synthetic governing start
s0 - (floor((s0 - date) / est) + 1) * est carrying index 0 (lines
175-181). -/
theorem backward_projection (indices : List Nat) (rest : List Int)
    (s0 est date : Int) (h : date < s0) :
    governingStart indices (s0 :: rest) s0 est date =
      (s0 - (Int.fdiv (s0 - date) est + 1) * est, 0) := by
  rw [governingStart]
  have hnone : findGoverning (indices.zip (s0 :: rest)) date = none := by
    cases indices with
    | nil => rfl
    | cons i is =>
      rw [List.zip_cons_cons, findGoverning, if_neg (not_le.mpr h)]
  rw [hnone]

/-- Witness for claim C4 at the spec's concrete instance, with day numbers
relative to 2024-02-01 = 0: first recorded start 2024-03-01 = 29,
estimated length 28, target date 2024-02-10 = 9; the synthetic start is
2024-02-02 = 1 and the emitted cycle_day is 9. -/
theorem backward_projection_witness :
    governingStart [1] [29] 29 28 9 = (1, 0) ∧
    (assignForDate [9, 29] [1] [29] 29 [⟨some 29, some 5, none, none⟩] 28
        9).map Prediction.cycleDay = some 9 := by
  constructor
  · rw [backward_projection [1] [] 29 28 9 (by norm_num)]
    decide
  · decide

/- ===== claim C8: the cycle-length estimator ===== -/

lemma cycleDeltas_eq_spec : ∀ starts : List Int,
    cycleDeltas starts =
      (List.zipWith (fun a b => b - a) starts starts.tail).filter
        (fun d => 15 ≤ d ∧ d ≤ 45)
  | [] => rfl
  | [_] => rfl
  | a :: b :: t => by
    rw [cycleDeltas, cycleDeltas_eq_spec (b :: t)]
    simp only [List.tail_cons, List.zipWith_cons_cons, List.filter_cons,
      Bool.and_eq_true, decide_eq_true_eq]
    by_cases h : 15 ≤ b - a ∧ b - a ≤ 45
    · rw [if_pos h, if_pos h]
      rfl
    · rw [if_neg h, if_neg h]
      rfl

/-- Claim C8: the estimated cycle length computed by the loop of lines
136-147 equals the spec's description — the truncated arithmetic mean of
the consecutive-start deltas lying in [15, 45], with the configured
default when no delta qualifies — and in particular a single-record
history yields the default. -/
theorem estimator_matches_spec :
    (∀ (dflt : Int) (starts : List Int),
        estimatedCycleLength dflt starts =
          specCycleLengthEstimate dflt starts) ∧
    ∀ (dflt s : Int), estimatedCycleLength dflt [s] = dflt := by
  constructor
  · intro dflt starts
    rw [estimatedCycleLength, specCycleLengthEstimate, cycleDeltas_eq_spec]
  · intro dflt s
    rfl

/- ===== claim C9: zero valid records ===== -/

/-- Claim C9: when at least one target date exists but every raw record
is invalid (startDate missing or falsy, or periodLength None) — which
includes an empty record list — the engine signals the no-cycle-data
failure (the early returns of lines 86-93 and 114-116, both printing and
producing no predictions) and emits nothing. -/
theorem no_cycle_data (dates : List Int) (recs : List RawCycle) (dflt : Int)
    (hd : dates ≠ []) (h : ∀ r ∈ recs, isValid r = false) :
    predictMenstrualPhases dates recs dflt =
      Except.error PredictError.noCycleData := by
  have hcs : cycleStarts recs = [] := by
    rw [cycleStarts, List.filterMap_eq_nil_iff]
    intro r hr
    rw [h r hr]
    rfl
  rw [predictMenstrualPhases, if_neg hd, if_pos hcs]

/-- Witness for claim C9: one target date, one record missing its start
date. -/
theorem no_cycle_data_witness :
    predictMenstrualPhases [0] [⟨none, some 5, none, none⟩] 28 =
      Except.error PredictError.noCycleData :=
  no_cycle_data [0] [⟨none, some 5, none, none⟩] 28 (by decide) (by decide)

/- ===== claim C10: falsy fertile hints are ignored ===== -/

lemma truthyHint_eq_none {r : RawCycle}
    (h : r.fertileWindowStart.getD 0 = 0 ∨
         r.lengthOfFertileWindow.getD 0 = 0) :
    truthyHint r = none := by
  obtain ⟨sd, pl, fs, fl⟩ := r
  cases fs with
  | none => rfl
  | some a =>
    cases fl with
    | none => rfl
    | some b =>
      simp only [Option.getD_some] at h
      show (if a ≠ 0 ∧ b ≠ 0 then some (a, b) else none) = none
      rw [if_neg (by tauto)]

/-- Claim C10: a fertileWindowStart or lengthOfFertileWindow that is 0 or
absent is falsy in the Python truth test of lines 111-112 (and 635-636),
so such records contribute no fertile_windows entry; when every record
with the governing start is of that kind the segmenter receives no hint
and falls back to the heuristic ovulatory estimate (midpoint
int(cycle_length * 14 / 28), duration 7) of lines 202-207. -/
theorem falsy_hint_ignored (recs : List RawCycle) (s m L : Int)
    (h : ∀ r ∈ recs, r.startDate = some s →
        r.fertileWindowStart.getD 0 = 0 ∨
        r.lengthOfFertileWindow.getD 0 = 0) :
    lookupFertile recs s = none ∧
    segmentPhases m L (lookupFertile recs s) =
      segmentCore m L (ovulatoryEstimate m L) := by
  have hnil : recs.filter (fun r =>
      isValid r && r.startDate == some s && (truthyHint r).isSome) = [] := by
    rw [List.filter_eq_nil_iff]
    intro r hr
    by_cases hs : r.startDate = some s
    · have ht : truthyHint r = none := truthyHint_eq_none (h r hr hs)
      simp [ht]
    · simp [hs]
  have h0 : lookupFertile recs s = none := by
    rw [lookupFertile, hnil]
    rfl
  refine ⟨h0, ?_⟩
  rw [h0]
  rfl

/-- Witness for claim C10: a record whose fertileWindowStart is 0 (with a
nonzero length) is ignored and the 28-day heuristic window is used. -/
theorem falsy_hint_ignored_witness :
    lookupFertile [⟨some 0, some 5, some 0, some 7⟩] 0 = none ∧
    segmentPhases 5 28 (lookupFertile [⟨some 0, some 5, some 0, some 7⟩] 0) =
      segmentCore 5 28 (ovulatoryEstimate 5 28) :=
  falsy_hint_ignored [⟨some 0, some 5, some 0, some 7⟩] 0 5 28 (by decide)

/- ===== claim C6: the normalized-history invariant ===== -/

lemma filterRev_chain : ∀ (rest : List Int) (a : Int) (kept : List Int),
    List.Chain' (fun p q => q + 15 ≤ p) (a :: kept) →
    (∀ x ∈ rest, a ≤ x) →
    List.Pairwise (· ≤ ·) rest →
    List.Chain' (fun p q => q + 15 ≤ p) (filterRev a kept rest)
  | [], _, _ => fun hc _ _ => hc
  | x :: xs, a, kept => by
    intro hc hge hs
    rw [filterRev]
    have hax : a ≤ x := hge x (List.mem_cons_self x xs)
    have hxs : ∀ y ∈ xs, x ≤ y := fun y hy => (List.pairwise_cons.mp hs).1 y hy
    have hs' : List.Pairwise (· ≤ ·) xs := (List.pairwise_cons.mp hs).2
    by_cases h15 : 15 ≤ x - a
    · rw [if_pos h15]
      exact filterRev_chain xs x (a :: kept)
        (List.chain'_cons.mpr ⟨by omega, hc⟩) hxs hs'
    · rw [if_neg h15]
      apply filterRev_chain xs x kept _ hxs hs'
      cases kept with
      | nil => exact List.chain'_singleton x
      | cons b bs =>
        exact List.chain'_cons.mpr
          ⟨by have := (List.chain'_cons.mp hc).1; omega,
           (List.chain'_cons.mp hc).2⟩

lemma filteredCycleStarts_chain (l : List Int) :
    List.Chain' (fun a b => a + 15 ≤ b) (filteredCycleStarts l) := by
  rw [filteredCycleStarts]
  cases hs : sortStarts l with
  | nil => exact List.chain'_nil
  | cons c cs =>
    have hsorted : List.Pairwise (· ≤ ·) (c :: cs) := by
      rw [← hs]
      exact List.sorted_insertionSort (· ≤ ·) l
    have h := filterRev_chain cs c [] (List.chain'_singleton c)
      (fun x hx => (List.pairwise_cons.mp hsorted).1 x hx)
      (List.pairwise_cons.mp hsorted).2
    rw [List.chain'_reverse]
    exact h

/-- Claim C6: for every raw record list with at least one valid record,
the normalized history of kept starts has every two consecutive entries at
least MIN_CYCLE_LENGTH = 15 days apart, and is therefore strictly
increasing. -/
theorem normalized_history_invariant (recs : List RawCycle)
    (h : cycleStarts recs ≠ []) :
    List.Chain' (fun a b => a + 15 ≤ b)
      (filteredCycleStarts (cycleStarts recs)) ∧
    List.Pairwise (· < ·) (filteredCycleStarts (cycleStarts recs)) := by
  have hc := filteredCycleStarts_chain (cycleStarts recs)
  refine ⟨hc, ?_⟩
  haveI : IsTrans Int (fun a b => a + 15 ≤ b) :=
    ⟨fun a b c h1 h2 => by omega⟩
  have hp : List.Pairwise (fun a b => a + 15 ≤ b)
      (filteredCycleStarts (cycleStarts recs)) :=
    List.chain'_iff_pairwise.mp hc
  exact hp.imp fun hab => by omega

/-- Witness for claim C6: two valid records 20 days apart. -/
theorem normalized_history_invariant_witness :
    List.Chain' (fun a b => a + 15 ≤ b)
      (filteredCycleStarts (cycleStarts
        [⟨some 0, some 5, none, none⟩, ⟨some 20, some 4, none, none⟩])) ∧
    List.Pairwise (· < ·)
      (filteredCycleStarts (cycleStarts
        [⟨some 0, some 5, none, none⟩, ⟨some 20, some 4, none, none⟩])) :=
  normalized_history_invariant
    [⟨some 0, some 5, none, none⟩, ⟨some 20, some 4, none, none⟩] (by decide)

/- ===== claim C7: emitted cycle days lie in [1, cycle_length] ===== -/

lemma firstIdxGe_spec : ∀ (dates : List Int) (s : Int) (i : Nat),
    firstIdxGe dates s = some i → ∃ d, dates.get? i = some d ∧ s ≤ d
  | [], s, i => by
    intro h
    simp [firstIdxGe] at h
  | d :: ds, s, i => by
    intro h
    rw [firstIdxGe] at h
    by_cases hd : s ≤ d
    · rw [if_pos hd] at h
      injection h with h0
      exact ⟨d, by rw [← h0]; rfl, hd⟩
    · rw [if_neg hd] at h
      cases hfd : firstIdxGe ds s with
      | none =>
        rw [hfd] at h
        simp at h
      | some i' =>
        rw [hfd] at h
        simp only [Option.map_some'] at h
        injection h with h0
        obtain ⟨d', hd', hsd⟩ := firstIdxGe_spec ds s i' hfd
        exact ⟨d', by rw [← h0, List.get?_cons_succ]; exact hd', hsd⟩

lemma firstIdxGe_mono : ∀ (dates : List Int) {s t : Int}, s ≤ t →
    ∀ {j : Nat}, firstIdxGe dates t = some j →
    ∃ i, firstIdxGe dates s = some i ∧ i ≤ j
  | [], s, t, _, j => by
    intro h
    simp [firstIdxGe] at h
  | d :: ds, s, t, hst, j => by
    intro h
    rw [firstIdxGe] at h
    rw [firstIdxGe]
    by_cases hs : s ≤ d
    · exact ⟨0, by rw [if_pos hs], Nat.zero_le j⟩
    · have ht : ¬ t ≤ d := fun hc => hs (le_trans hst hc)
      rw [if_neg ht] at h
      rw [if_neg hs]
      cases hfd : firstIdxGe ds t with
      | none =>
        rw [hfd] at h
        simp at h
      | some j' =>
        rw [hfd] at h
        simp only [Option.map_some'] at h
        injection h with h0
        obtain ⟨i', hi', hle⟩ := firstIdxGe_mono ds hst hfd
        exact ⟨i' + 1, by rw [hi']; rfl, by omega⟩

lemma indices_align (dates : List Int) : ∀ (starts : List Int),
    List.Pairwise (· ≤ ·) starts → ∀ (k i : Nat),
    (cycleStartIndices dates starts).get? k = some i →
    ∃ s, starts.get? k = some s ∧ firstIdxGe dates s = some i
  | [] => by
    intro _ k i h
    simp [cycleStartIndices] at h
  | s0 :: rest => by
    intro hs k i h
    rw [cycleStartIndices] at h
    cases hf : firstIdxGe dates s0 with
    | none =>
      rw [List.filterMap_cons_none hf] at h
      have hnil : rest.filterMap (firstIdxGe dates) = [] := by
        rw [List.filterMap_eq_nil_iff]
        intro t ht
        cases hft : firstIdxGe dates t with
        | none => rfl
        | some j =>
          obtain ⟨i', hi', _⟩ :=
            firstIdxGe_mono dates ((List.pairwise_cons.mp hs).1 t ht) hft
          rw [hf] at hi'
          cases hi'
      rw [hnil] at h
      simp at h
    | some i0 =>
      rw [List.filterMap_cons_some hf] at h
      cases k with
      | zero =>
        injection h with h0
        exact ⟨s0, rfl, by rw [hf, h0]⟩
      | succ k' =>
        obtain ⟨s', h1, h2⟩ := indices_align dates rest
          (List.pairwise_cons.mp hs).2 k' i (by simpa using h)
        exact ⟨s', by simpa using h1, h2⟩

lemma indices_pairwise (dates : List Int) (starts : List Int)
    (hs : List.Pairwise (· ≤ ·) starts) :
    List.Pairwise (· ≤ ·) (cycleStartIndices dates starts) := by
  rw [cycleStartIndices, List.pairwise_filterMap]
  refine hs.imp ?_
  intro a b hab i hi j hj
  rw [Option.mem_def] at hi hj
  obtain ⟨i', hi', hle⟩ := firstIdxGe_mono dates hab hj
  rw [hi] at hi'
  injection hi' with h0
  omega

lemma findGoverning_mem : ∀ (ps : List (Nat × Int)) (date s : Int) (i : Nat),
    findGoverning ps date = some (s, i) → ∃ k, ps.get? k = some (i, s)
  | [], _, _, _ => by
    intro h
    simp [findGoverning] at h
  | (i0, s0) :: rest, date, s, i => by
    intro h
    rw [findGoverning] at h
    by_cases hd : s0 ≤ date
    · rw [if_pos hd] at h
      cases hfr : findGoverning rest date with
      | none =>
        rw [hfr] at h
        injection h with h0
        injection h0 with h1 h2
        subst h1
        subst h2
        exact ⟨0, rfl⟩
      | some r =>
        rw [hfr] at h
        injection h with h0
        obtain ⟨k, hk⟩ := findGoverning_mem rest date s i (by rw [hfr, h0])
        exact ⟨k + 1, by simpa using hk⟩
    · rw [if_neg hd] at h
      cases h

lemma cycleDeltas_ge : ∀ (starts : List Int), ∀ d ∈ cycleDeltas starts, 15 ≤ d
  | [] => by simp [cycleDeltas]
  | [a] => by simp [cycleDeltas]
  | a :: b :: t => by
    intro d hd
    rw [cycleDeltas] at hd
    rcases List.mem_append.mp hd with h | h
    · by_cases hc : 15 ≤ b - a ∧ b - a ≤ 45
      · rw [if_pos hc] at h
        simp only [List.mem_singleton] at h
        omega
      · rw [if_neg hc] at h
        simp at h
    · exact cycleDeltas_ge (b :: t) d h

lemma sum_ge_card_mul : ∀ (l : List Int), (∀ d ∈ l, 15 ≤ d) →
    15 * (l.length : Int) ≤ l.sum
  | [] => by simp
  | x :: xs => by
    intro h
    have h1 := h x (List.mem_cons_self x xs)
    have h2 := sum_ge_card_mul xs fun d hd => h d (List.mem_cons_of_mem x hd)
    simp only [List.sum_cons, List.length_cons]
    push_cast
    linarith

lemma estimated_ge_one (dflt : Int) (starts : List Int) (hd : 1 ≤ dflt) :
    1 ≤ estimatedCycleLength dflt starts := by
  have hunfold : estimatedCycleLength dflt starts =
      if cycleDeltas starts = [] then dflt
      else Int.tdiv (cycleDeltas starts).sum
        ((cycleDeltas starts).length : Int) := rfl
  rw [hunfold]
  by_cases he : cycleDeltas starts = []
  · rw [if_pos he]
    exact hd
  · rw [if_neg he]
    have hlen : 0 < (cycleDeltas starts).length := List.length_pos.mpr he
    have hsum := sum_ge_card_mul (cycleDeltas starts) (cycleDeltas_ge starts)
    have hlen' : (0 : Int) < ((cycleDeltas starts).length : Int) := by
      exact_mod_cast hlen
    rw [Int.tdiv_eq_ediv (by nlinarith) (by omega)]
    rw [Int.le_ediv_iff_mul_le hlen']
    nlinarith

lemma collectPredictions_mem : ∀ (l : List Int) (ps : List Prediction)
    (f : Int → Option Prediction), collectPredictions f l = some ps →
    ∀ p ∈ ps, ∃ d ∈ l, f d = some p
  | [], ps, f => by
    intro h p hp
    rw [collectPredictions] at h
    injection h with h0
    rw [← h0] at hp
    cases hp
  | d :: ds, ps, f => by
    intro h p hp
    rw [collectPredictions] at h
    cases hfd : f d with
    | none =>
      rw [hfd] at h
      cases hcd : collectPredictions f ds with
      | none => rw [hcd] at h; cases h
      | some ps' => rw [hcd] at h; cases h
    | some p0 =>
      rw [hfd] at h
      cases hcd : collectPredictions f ds with
      | none => rw [hcd] at h; cases h
      | some ps' =>
        rw [hcd] at h
        injection h with h0
        rw [← h0] at hp
        rcases List.mem_cons.mp hp with rfl | hmem
        · exact ⟨d, List.mem_cons_self d ds, hfd⟩
        · obtain ⟨d', hd', hfd'⟩ := collectPredictions_mem ds ps' f hcd p hmem
          exact ⟨d', List.mem_cons_of_mem d hd', hfd'⟩

lemma currentLen_shape (dates starts : List Int) (est cs : Int) (idx : Nat)
    (L : Int) (hsort : List.Pairwise (· ≤ ·) starts)
    (hL : currentCycleLength dates (cycleStartIndices dates starts) est cs idx
      = some L) :
    L = est ∨
    ∃ q i1 s1 d, (cycleStartIndices dates starts).get? q = some i1 ∧
      starts.get? q = some s1 ∧ dates.get? i1 = some d ∧ s1 ≤ d ∧
      L = d - cs ∧
      ((idx ∈ cycleStartIndices dates starts ∧
        q = listIndex (cycleStartIndices dates starts) idx + 1) ∨
       (¬ idx ∈ cycleStartIndices dates starts ∧
        q + 1 = (cycleStartIndices dates starts).length)) := by
  by_cases hmem : idx ∈ cycleStartIndices dates starts
  · simp only [currentCycleLength, if_pos hmem] at hL
    by_cases hlt : ((listIndex (cycleStartIndices dates starts) idx : Int) + 1)
        < ((cycleStartIndices dates starts).length : Int)
    · rw [if_pos hlt] at hL
      have hq : listIndex (cycleStartIndices dates starts) idx + 1 <
          (cycleStartIndices dates starts).length := by omega
      have hpy : pyIdx (cycleStartIndices dates starts)
          ((listIndex (cycleStartIndices dates starts) idx : Int) + 1) =
          (cycleStartIndices dates starts).get?
            (listIndex (cycleStartIndices dates starts) idx + 1) := by
        rw [pyIdx, if_pos (by omega : (0 : Int) ≤
          (listIndex (cycleStartIndices dates starts) idx : Int) + 1)]
        congr 1 <;> omega
      rw [hpy] at hL
      obtain ⟨i1, hi1⟩ : ∃ i1, (cycleStartIndices dates starts).get?
          (listIndex (cycleStartIndices dates starts) idx + 1) = some i1 := by
        rw [List.get?_eq_get hq]
        exact ⟨_, rfl⟩
      rw [hi1] at hL
      have hL2 : (match dates.get? i1 with
          | none => none
          | some d => some (d - cs)) = some L := hL
      obtain ⟨s1, hs1, hf1⟩ := indices_align dates starts hsort _ _ hi1
      obtain ⟨d, hdd, hsd⟩ := firstIdxGe_spec dates s1 i1 hf1
      rw [hdd] at hL2
      injection hL2 with h0
      right
      exact ⟨_, i1, s1, d, hi1, hs1, hdd, hsd, h0.symm, Or.inl ⟨hmem, rfl⟩⟩
    · rw [if_neg hlt] at hL
      injection hL with h0
      exact Or.inl h0.symm
  · simp only [currentCycleLength, if_neg hmem] at hL
    have hneg : (-1 : Int) < ((cycleStartIndices dates starts).length : Int) :=
      by omega
    rw [if_pos hneg] at hL
    by_cases hlen : 1 ≤ (cycleStartIndices dates starts).length
    · have hpy : pyIdx (cycleStartIndices dates starts) (-1) =
          (cycleStartIndices dates starts).get?
            ((cycleStartIndices dates starts).length - 1) := by
        rw [pyIdx, if_neg (by norm_num)]
        rw [if_pos (by omega : -(-1 : Int) ≤
          ((cycleStartIndices dates starts).length : Int))]
        norm_num
      rw [hpy] at hL
      have hq : (cycleStartIndices dates starts).length - 1 <
          (cycleStartIndices dates starts).length := by omega
      obtain ⟨i1, hi1⟩ : ∃ i1, (cycleStartIndices dates starts).get?
          ((cycleStartIndices dates starts).length - 1) = some i1 := by
        rw [List.get?_eq_get hq]
        exact ⟨_, rfl⟩
      rw [hi1] at hL
      have hL2 : (match dates.get? i1 with
          | none => none
          | some d => some (d - cs)) = some L := hL
      obtain ⟨s1, hs1, hf1⟩ := indices_align dates starts hsort _ _ hi1
      obtain ⟨d, hdd, hsd⟩ := firstIdxGe_spec dates s1 i1 hf1
      rw [hdd] at hL2
      injection hL2 with h0
      right
      exact ⟨_, i1, s1, d, hi1, hs1, hdd, hsd, h0.symm,
        Or.inr ⟨hmem, by omega⟩⟩
    · have hnil : cycleStartIndices dates starts = [] := by
        cases h' : cycleStartIndices dates starts with
        | nil => rfl
        | cons a as =>
          rw [h'] at hlen
          simp at hlen
      rw [hnil] at hL
      have hL2 : (none : Option Int) = some L := hL
      cases hL2

lemma assignForDate_eq (dates : List Int) (indices : List Nat)
    (starts : List Int) (s0 : Int) (recs : List RawCycle) (est date : Int) :
    assignForDate dates indices starts s0 recs est date =
      match currentCycleLength dates indices est
          (governingStart indices starts s0 est date).1
          (governingStart indices starts s0 est date).2 with
      | none => none
      | some L =>
        if L = 0 then none
        else some
          { date := date
            startDate := (governingStart indices starts s0 est date).1
            predictedPhase := classifyPhase
              (segmentPhases
                ((lookupPeriod recs
                  (governingStart indices starts s0 est date).1).getD 5) L
                (lookupFertile recs
                  (governingStart indices starts s0 est date).1))
              (if Int.fmod
                  (date - (governingStart indices starts s0 est date).1 + 1)
                  L ≠ 0
               then Int.fmod
                  (date - (governingStart indices starts s0 est date).1 + 1) L
               else L)
            cycleDay :=
              if Int.fmod
                  (date - (governingStart indices starts s0 est date).1 + 1)
                  L ≠ 0
              then Int.fmod
                  (date - (governingStart indices starts s0 est date).1 + 1) L
              else L } := rfl

lemma assign_cycleDay_bounds (dates starts : List Int) (recs : List RawCycle)
    (est s0 date : Int) (p : Prediction)
    (hsort : List.Pairwise (· ≤ ·) starts)
    (hhead : starts.get? 0 = some s0)
    (hest : 1 ≤ est)
    (hne : cycleStartIndices dates starts ≠ [])
    (hp : assignForDate dates (cycleStartIndices dates starts) starts s0 recs
      est date = some p) :
    ∃ L, 1 ≤ L ∧
      p.cycleDay = (if Int.fmod (p.date - p.startDate + 1) L ≠ 0
        then Int.fmod (p.date - p.startDate + 1) L else L) ∧
      1 ≤ p.cycleDay ∧ p.cycleDay ≤ L := by
  rw [assignForDate_eq] at hp
  set gv := governingStart (cycleStartIndices dates starts) starts s0 est date
    with hgv
  split at hp
  next => cases hp
  next L hL =>
    split at hp
    next => cases hp
    next hL0 =>
      injection hp with hp0
      have hLpos : 1 ≤ L := by
        cases hgov : findGoverning
            ((cycleStartIndices dates starts).zip starts) date with
        | none =>
          have hgv1 : gv = (s0 - (Int.fdiv (s0 - date) est + 1) * est, 0) := by
            rw [hgv, governingStart, hgov]
          obtain ⟨i0, il', hil'⟩ := List.exists_cons_of_ne_nil hne
          obtain ⟨rest, hrest⟩ : ∃ rest, starts = s0 :: rest := by
            cases starts with
            | nil => simp at hhead
            | cons a t =>
              have ha : a = s0 := by simpa using hhead
              exact ⟨t, by rw [ha]⟩
          have hdate : date < s0 := by
            by_contra hge
            push_neg at hge
            rw [hil', hrest, List.zip_cons_cons, findGoverning] at hgov
            rw [if_pos hge] at hgov
            cases hfr : findGoverning (il'.zip rest) date with
            | none => rw [hfr] at hgov; cases hgov
            | some r => rw [hfr] at hgov; cases hgov
          have hfd : 0 ≤ Int.fdiv (s0 - date) est :=
            Int.fdiv_nonneg (by omega) (by omega)
          have hcb : est ≤ (Int.fdiv (s0 - date) est + 1) * est := by nlinarith
          have hcs1 : gv.1 + 1 ≤ s0 := by
            rw [hgv1]
            show s0 - (Int.fdiv (s0 - date) est + 1) * est + 1 ≤ s0
            omega
          rcases currentLen_shape dates starts est gv.1 gv.2 L hsort hL with
            heq | ⟨q, i1, s1, d, hq, hs1, hd, hsd, hLd, _⟩
          · omega
          · have hs0s1 : s0 ≤ s1 :=
              pairwise_le_get? hsort hhead hs1 (Nat.zero_le q)
            omega
        | some r =>
          obtain ⟨s, i⟩ := r
          have hgv1 : gv = (s, i) := by rw [hgv, governingStart, hgov]
          obtain ⟨k, hk⟩ := findGoverning_mem _ date s i hgov
          obtain ⟨hki, hks⟩ := zip_get? _ starts k i s hk
          rcases currentLen_shape dates starts est gv.1 gv.2 L hsort hL with
            heq | ⟨q, i1, s1, d, hq, hs1, hd, hsd, hLd, hqd⟩
          · omega
          · have hgv1' : gv.1 = s := by rw [hgv1]
            have hgv2 : gv.2 = i := by rw [hgv1]
            rcases hqd with ⟨hmem2, hqeq⟩ | ⟨hnmem, _⟩
            · rw [hgv2] at hmem2 hqeq
              have hj0le : listIndex (cycleStartIndices dates starts) i ≤ k :=
                listIndex_le hki
              by_cases hqk : q ≤ k
              · have hj0 : (cycleStartIndices dates starts).get?
                    (listIndex (cycleStartIndices dates starts) i) = some i :=
                  listIndex_get? hmem2
                have hip := indices_pairwise dates starts hsort
                have hle1 : i ≤ i1 := pairwise_le_get? hip hj0 hq (by omega)
                have hle2 : i1 ≤ i := pairwise_le_get? hip hq hki hqk
                have hii : i1 = i := le_antisymm hle2 hle1
                obtain ⟨s', hs', hf'⟩ := indices_align dates starts hsort k i hki
                have hss : s' = s := by
                  rw [hks] at hs'
                  injection hs' with hv
                  exact hv.symm
                subst hss
                obtain ⟨d', hd', hsd'⟩ := firstIdxGe_spec dates s' i hf'
                rw [hii] at hd
                rw [hd'] at hd
                injection hd with hdd'
                rw [hgv1'] at hLd
                omega
              · have hsq : s ≤ s1 := pairwise_le_get? hsort hks hs1 (by omega)
                rw [hgv1'] at hLd
                omega
            · rw [hgv2] at hnmem
              exact absurd (mem_of_get?_eq_some hki) hnmem
      subst hp0
      refine ⟨L, hLpos, rfl, ?_, ?_⟩
      · show 1 ≤ (if Int.fmod (date - gv.1 + 1) L ≠ 0
          then Int.fmod (date - gv.1 + 1) L else L)
        by_cases hr : Int.fmod (date - gv.1 + 1) L ≠ 0
        · rw [if_pos hr]
          have h0 : 0 ≤ Int.fmod (date - gv.1 + 1) L := by
            rw [Int.fmod_eq_emod _ (by omega : (0 : Int) ≤ L)]
            exact Int.emod_nonneg _ (by omega)
          omega
        · rw [if_neg hr]
          exact hLpos
      · show (if Int.fmod (date - gv.1 + 1) L ≠ 0
          then Int.fmod (date - gv.1 + 1) L else L) ≤ L
        by_cases hr : Int.fmod (date - gv.1 + 1) L ≠ 0
        · rw [if_pos hr]
          have hlt : Int.fmod (date - gv.1 + 1) L < L := by
            rw [Int.fmod_eq_emod _ (by omega : (0 : Int) ≤ L)]
            exact Int.emod_lt_of_pos _ (by omega)
          omega
        · rw [if_neg hr]

lemma filteredCycleStarts_pairwise (l : List Int) :
    List.Pairwise (· ≤ ·) (filteredCycleStarts l) := by
  haveI : IsTrans Int (fun a b : Int => a + 15 ≤ b) :=
    ⟨fun a b c h1 h2 => by omega⟩
  exact (List.chain'_iff_pairwise.mp (filteredCycleStarts_chain l)).imp
    fun hab => by omega

/-- Claim C7: every prediction the batch emits carries as cycle_day the
1-based offset date - cycle_start + 1 folded by the governing cycle's
length: cycle_day mod cycle_length with a zero remainder mapped to
cycle_length itself (line 227), so it lies in [1, cycle_length] and in
particular is positive, never 0.  (A run that would divide by a zero
cycle length raises instead of emitting, so every emitted record
satisfies the bound.) -/
theorem emitted_cycle_day_in_range (dates : List Int) (recs : List RawCycle)
    (dflt : Int) (ps : List Prediction) (hdflt : 1 ≤ dflt)
    (hok : predictMenstrualPhases dates recs dflt = Except.ok ps) :
    ∀ p ∈ ps, ∃ L, 1 ≤ L ∧
      p.cycleDay = (if Int.fmod (p.date - p.startDate + 1) L ≠ 0
        then Int.fmod (p.date - p.startDate + 1) L else L) ∧
      1 ≤ p.cycleDay ∧ p.cycleDay ≤ L := by
  intro p hp
  rw [predictMenstrualPhases] at hok
  split at hok
  next => cases hok
  next hd =>
    split at hok
    next => cases hok
    next hcs =>
      split at hok
      next hfs => cases hok
      next s0 rest hfs =>
        split at hok
        next => cases hok
        next hne =>
          split at hok
          next => cases hok
          next out hcoll =>
            injection hok with hout
            subst hout
            obtain ⟨d, hdmem, hassign⟩ :=
              collectPredictions_mem dates out _ hcoll p hp
            exact assign_cycleDay_bounds dates (s0 :: rest) recs
              (estimatedCycleLength dflt (s0 :: rest)) s0 d p
              (hfs ▸ filteredCycleStarts_pairwise (cycleStarts recs))
              rfl
              (estimated_ge_one dflt (s0 :: rest) hdflt)
              hne hassign

/-- Witness for claim C7 on the claim C3 scenario run, at the emitted
prediction for day 24 (2025-01-25, cycle_day 25). -/
theorem emitted_cycle_day_in_range_witness :
    ∃ L, 1 ≤ L ∧
      (Prediction.mk 24 0 Phase.Luteal 25).cycleDay =
        (if Int.fmod ((Prediction.mk 24 0 Phase.Luteal 25).date -
            (Prediction.mk 24 0 Phase.Luteal 25).startDate + 1) L ≠ 0
         then Int.fmod ((Prediction.mk 24 0 Phase.Luteal 25).date -
            (Prediction.mk 24 0 Phase.Luteal 25).startDate + 1) L
         else L) ∧
      1 ≤ (Prediction.mk 24 0 Phase.Luteal 25).cycleDay ∧
      (Prediction.mk 24 0 Phase.Luteal 25).cycleDay ≤ L :=
  emitted_cycle_day_in_range [0, 24] [⟨some 0, some 5, none, none⟩] 28
    [⟨0, 0, Phase.Menstrual, 1⟩, ⟨24, 0, Phase.Luteal, 25⟩]
    (by norm_num) rfl ⟨24, 0, Phase.Luteal, 25⟩ (by simp)
